import Mathlib

/-!
Verification of the strided element-wise Add surface of
`Modules/SwiftRTCuda/asmdOps.h` (`srtAdd`, `srtAddFullyStrided`).

The repository supplies only the C declarations of the two entry points;
the engine they imply (type dispatch, validation, and the strided-map
kernel) is specified in prose.  The definitions below are therefore a
shallow embedding of that specified engine: buffers are total functions
`Int → α` (addresses are element offsets, which may be negative under
negative strides), the execution queue is a log of enqueued work items,
and an enqueued operation is interpreted by the buffer contents it will
have produced once the queue has drained.
-/

/-- Modelled from the spec: the `cudaDataType_t` tag identifying the scalar
element kind.  The spec lists 16/32/64-bit floats and 8/16/32-bit integer
variants as the supported numeric kinds; the tag type itself (CUDA's
`cudaDataType_t`) also carries kinds outside that set, modelled here by the
complex tags. -/
inductive CudaDataType where
  | real16F
  | real32F
  | real64F
  | real8I
  | real8U
  | real16I
  | real16U
  | real32I
  | real32U
  | complex32F
  | complex64F
  deriving DecidableEq, Repr

/-- Modelled from the spec: which kinds the Add dispatch front-end supports
(the real numeric kinds; anything else fails with UnsupportedType). -/
def isSupported : CudaDataType → Bool
  | .complex32F => false
  | .complex64F => false
  | _ => true

/-- Modelled from the spec: the status code returned by value from the two
entry points (`cudaError_t` in the C declarations, abstracted by the spec
to a small closed enumeration). -/
inductive SrtStatus where
  | Success
  | UnsupportedType
  | InvalidRank
  | InvalidArgument
  | QueueError
  | DeviceError
  deriving DecidableEq, Repr

/-- Modelled from the spec: the maximum supported rank for the fully
strided variant (a fixed maximum, e.g. 8). -/
def MAX_RANK : Nat := 8

/-- Write value `v` at element offset `k` of buffer `f`. -/
def store {α : Type} (f : Int → α) (k : Int) (v : α) : Int → α :=
  fun j => if j = k then v else f j

/-- Fold a sequence of stores over a list of positions: position `p` writes
value `vals p` at offset `keys p`. -/
def storeFold {α : Type} (keys : Nat → Int) (vals : Nat → α)
    (c : Int → α) (l : List Nat) : Int → α :=
  l.foldl (fun cc p => store cc (keys p) (vals p)) c

/-- Modelled from the spec: the one-dimensional strided-map kernel body as
executed over an arbitrary schedule of output positions (the partition of
work across parallel execution units).  Position `i` writes
`a[i*strideA] + b[i*strideB]` at output offset `i`. -/
def mapAdd1DSched {α : Type} [Add α] (sched : List Nat)
    (a : Int → α) (strideA : Int) (b : Int → α) (strideB : Int)
    (c : Int → α) : Int → α :=
  storeFold (fun i => (i : Int))
    (fun i => a ((i : Int) * strideA) + b ((i : Int) * strideB)) c sched

/-- Modelled from the spec: the one-dimensional strided-map kernel,
covering all output positions `[0, count)` (canonical enumeration). -/
def mapAdd1D {α : Type} [Add α] (a : Int → α) (strideA : Int)
    (b : Int → α) (strideB : Int) (c : Int → α) (count : Nat) : Int → α :=
  mapAdd1DSched (List.range count) a strideA b strideB c

/-- Dot product of a multi-dimensional index vector with a stride vector,
giving a linear element offset. -/
def dot : List Nat → List Int → Int
  | i :: is, s :: ss => (i : Int) * s + dot is ss
  | _, _ => 0

/-- Decompose a linear position into per-dimension counters, taking the
extents with the fastest-varying dimension first. -/
def unravelRev : List Nat → Nat → List Nat
  | [], _ => []
  | e :: es, p => p % e :: unravelRev es (p / e)

/-- Modelled from the spec: canonical row-major decomposition of a linear
output position into the index vector `idx[0..dims)` (last dimension
varies fastest). -/
def unravel (extents : List Nat) (p : Nat) : List Nat :=
  (unravelRev extents.reverse p).reverse

/-- Modelled from the spec: the fully strided N-dimensional kernel body as
executed over an arbitrary schedule of linear output positions.  Position
`p` is decomposed row-major into `idx`, and each operand's linear offset
is the dot product of `idx` with that operand's stride vector. -/
def mapAddStridedSched {α : Type} [Add α] (sched : List Nat)
    (extents : List Nat)
    (a : Int → α) (stridesA : List Int)
    (b : Int → α) (stridesB : List Int)
    (c : Int → α) (stridesC : List Int) : Int → α :=
  storeFold (fun p => dot (unravel extents p) stridesC)
    (fun p =>
      a (dot (unravel extents p) stridesA) +
      b (dot (unravel extents p) stridesB)) c sched

/-- Modelled from the spec: the fully strided N-dimensional kernel over the
whole iteration space (all linear positions below the product of the
extents, enumerated canonically). -/
def mapAddStrided {α : Type} [Add α] (extents : List Nat)
    (a : Int → α) (stridesA : List Int)
    (b : Int → α) (stridesB : List Int)
    (c : Int → α) (stridesC : List Int) : Int → α :=
  mapAddStridedSched (List.range extents.prod) extents
    a stridesA b stridesB c stridesC

/-- Modelled from the spec: the caller-owned buffers of one invocation
(two read-only inputs, one output) together with the execution queue,
modelled as a log of enqueued work items. -/
structure OpState (α : Type) where
  a : Int → α
  b : Int → α
  c : Int → α
  queue : List Unit

/-- Modelled from the spec: the `srtAdd` entry point
(`srtAdd(type, a, strideA, b, strideB, c, count, stream)`), whose body is
absent from the repository.  The dispatch front-end validates the kind tag
and the count synchronously before any queue interaction; on success it
enqueues the one-dimensional strided-map kernel, and the returned state
shows the output buffer as it stands once the enqueued work completes. -/
def srtAdd {α : Type} [Add α] (type : CudaDataType)
    (strideA strideB : Int) (count : Int) (s : OpState α) :
    SrtStatus × OpState α :=
  if isSupported type = false then
    (.UnsupportedType, s)
  else if count < 0 then
    (.InvalidArgument, s)
  else
    (.Success,
      { s with
        c := mapAdd1D s.a strideA s.b strideB s.c count.toNat
        queue := s.queue ++ [()] })

/-- Modelled from the spec: the `srtAddFullyStrided` entry point
(`srtAddFullyStrided(type, dims, a, stridesA, b, stridesB, c, stridesC,
stream)`), whose body is absent from the repository.  The output's
dimension extents are not a parameter of the C declaration; the spec
treats the shape as externally supplied alongside the strides, so it is an
explicit argument here.  Rank and kind are validated synchronously before
any queue interaction; on success the N-dimensional strided-map kernel is
enqueued. -/
def srtAddFullyStrided {α : Type} [Add α] (type : CudaDataType)
    (dims : Int) (extents : List Nat)
    (stridesA stridesB stridesC : List Int) (s : OpState α) :
    SrtStatus × OpState α :=
  if dims < 0 ∨ (MAX_RANK : Int) < dims then
    (.InvalidRank, s)
  else if isSupported type = false then
    (.UnsupportedType, s)
  else
    (.Success,
      { s with
        c := mapAddStrided extents s.a stridesA s.b stridesB s.c stridesC
        queue := s.queue ++ [()] })

/-! ### Semantics of the store fold -/

lemma store_same {α : Type} (f : Int → α) (k : Int) (v : α) :
    store f k v k = v := by
  simp [store]

lemma store_other {α : Type} (f : Int → α) (k : Int) (v : α) (j : Int)
    (h : j ≠ k) : store f k v j = f j := by
  simp [store, h]

lemma storeFold_cons {α : Type} (keys : Nat → Int) (vals : Nat → α)
    (c : Int → α) (q : Nat) (rest : List Nat) :
    storeFold keys vals c (q :: rest)
      = storeFold keys vals (store c (keys q) (vals q)) rest := rfl

/-- Offsets never written by the fold keep the prior buffer contents. -/
lemma storeFold_frame {α : Type} (keys : Nat → Int) (vals : Nat → α)
    (c : Int → α) (l : List Nat) (j : Int)
    (hj : ∀ p ∈ l, keys p ≠ j) :
    storeFold keys vals c l j = c j := by
  induction l generalizing c with
  | nil => rfl
  | cons q rest ih =>
      rw [storeFold_cons, ih _ fun p hp => hj p (List.mem_cons_of_mem _ hp)]
      exact store_other _ _ _ _ fun h =>
        hj q (List.mem_cons_self _ _) h.symm

/-- If the scheduled positions write to pairwise distinct offsets, every
scheduled position ends up holding its own value (the values do not depend
on the evolving output buffer, so no write can be lost). -/
lemma storeFold_eval {α : Type} (keys : Nat → Int) (vals : Nat → α)
    (c : Int → α) (l : List Nat)
    (hinj : ∀ p ∈ l, ∀ q ∈ l, keys p = keys q → p = q)
    (p : Nat) (hp : p ∈ l) :
    storeFold keys vals c l (keys p) = vals p := by
  induction l generalizing c with
  | nil => cases hp
  | cons q rest ih =>
      rw [storeFold_cons]
      by_cases hpr : p ∈ rest
      · exact ih _
          (fun x hx y hy => hinj x (List.mem_cons_of_mem _ hx)
            y (List.mem_cons_of_mem _ hy)) hpr
      · have hpq : p = q := by
          rcases List.mem_cons.mp hp with h | h
          · exact h
          · exact absurd h hpr
        subst hpq
        rw [storeFold_frame]
        · exact store_same _ _ _
        · intro r hr hk
          exact hpr ((hinj r (List.mem_cons_of_mem _ hr) p hp hk) ▸ hr)

/-- With pairwise distinct write offsets, the result of the fold depends
only on which positions are scheduled, not on their order or grouping. -/
lemma storeFold_congr_mem {α : Type} (keys : Nat → Int) (vals : Nat → α)
    (c : Int → α) (l₁ l₂ : List Nat)
    (hmem : ∀ p, p ∈ l₁ ↔ p ∈ l₂)
    (hinj : ∀ p ∈ l₁, ∀ q ∈ l₁, keys p = keys q → p = q) :
    storeFold keys vals c l₁ = storeFold keys vals c l₂ := by
  funext j
  by_cases hex : ∃ p ∈ l₁, keys p = j
  · obtain ⟨p, hp, hk⟩ := hex
    subst hk
    rw [storeFold_eval keys vals c l₁ hinj p hp,
      storeFold_eval keys vals c l₂
        (fun x hx y hy => hinj x ((hmem x).mpr hx) y ((hmem y).mpr hy))
        p ((hmem p).mp hp)]
  · push_neg at hex
    rw [storeFold_frame _ _ _ _ _ hex,
      storeFold_frame _ _ _ _ _ fun p hp => hex p ((hmem p).mpr hp)]

/-! ### Semantics of the two kernels -/

lemma mapAdd1D_eval {α : Type} [Add α] (a : Int → α) (strideA : Int)
    (b : Int → α) (strideB : Int) (c : Int → α) (n : Nat)
    (i : Nat) (hi : i < n) :
    mapAdd1D a strideA b strideB c n (i : Int)
      = a ((i : Int) * strideA) + b ((i : Int) * strideB) := by
  unfold mapAdd1D mapAdd1DSched
  exact storeFold_eval _ _ _ _
    (fun p _ q _ h => Int.natCast_inj.mp h) i (List.mem_range.mpr hi)

lemma mapAdd1D_frame {α : Type} [Add α] (a : Int → α) (strideA : Int)
    (b : Int → α) (strideB : Int) (c : Int → α) (n : Nat)
    (j : Int) (hj : j < 0 ∨ (n : Int) ≤ j) :
    mapAdd1D a strideA b strideB c n j = c j := by
  unfold mapAdd1D mapAdd1DSched
  apply storeFold_frame
  intro p hp he
  have := List.mem_range.mp hp
  omega

lemma mapAddStrided_eval {α : Type} [Add α] (extents : List Nat)
    (a : Int → α) (stridesA : List Int) (b : Int → α) (stridesB : List Int)
    (c : Int → α) (stridesC : List Int)
    (hinj : ∀ p < extents.prod, ∀ q < extents.prod,
      dot (unravel extents p) stridesC = dot (unravel extents q) stridesC →
        p = q)
    (p : Nat) (hp : p < extents.prod) :
    mapAddStrided extents a stridesA b stridesB c stridesC
        (dot (unravel extents p) stridesC)
      = a (dot (unravel extents p) stridesA)
        + b (dot (unravel extents p) stridesB) := by
  unfold mapAddStrided mapAddStridedSched
  exact storeFold_eval _ _ _ _
    (fun x hx y hy h =>
      hinj x (List.mem_range.mp hx) y (List.mem_range.mp hy) h)
    p (List.mem_range.mpr hp)

lemma unravel_singleton (n p : Nat) : unravel [n] p = [p % n] := by
  simp [unravel, unravelRev]

lemma dot_singleton (i : Nat) (s : Int) : dot [i] [s] = (i : Int) * s := by
  simp [dot]

/-- The fully strided kernel at rank 1 with contiguous output coincides
with the one-dimensional kernel. -/
lemma mapAddStrided_dim1 {α : Type} [Add α] (a : Int → α) (strideA : Int)
    (b : Int → α) (strideB : Int) (c : Int → α) (n : Nat) :
    mapAddStrided [n] a [strideA] b [strideB] c [1]
      = mapAdd1D a strideA b strideB c n := by
  have hprod : ([n] : List Nat).prod = n := by simp
  have hinj' : ∀ p < ([n] : List Nat).prod, ∀ q < ([n] : List Nat).prod,
      dot (unravel [n] p) [1] = dot (unravel [n] q) [1] → p = q := by
    intro p hp q hq h
    rw [hprod] at hp hq
    rw [unravel_singleton, unravel_singleton, dot_singleton, dot_singleton,
      mul_one, mul_one, Nat.mod_eq_of_lt hp, Nat.mod_eq_of_lt hq] at h
    exact Int.natCast_inj.mp h
  funext j
  by_cases hex : ∃ i : Nat, i < n ∧ (i : Int) = j
  · obtain ⟨i, hi, rfl⟩ := hex
    have hL := mapAddStrided_eval [n] a [strideA] b [strideB] c [1] hinj'
      i (by rw [hprod]; exact hi)
    rw [unravel_singleton, Nat.mod_eq_of_lt hi, dot_singleton,
      dot_singleton, dot_singleton, mul_one] at hL
    rw [hL, mapAdd1D_eval a strideA b strideB c n i hi]
  · rw [mapAdd1D_frame]
    · unfold mapAddStrided mapAddStridedSched
      apply storeFold_frame
      intro p hp he
      have hp' : p < n := by
        have h2 := List.mem_range.mp hp
        rw [hprod] at h2
        exact h2
      rw [unravel_singleton, dot_singleton, Nat.mod_eq_of_lt hp',
        mul_one] at he
      exact hex ⟨p, hp', he⟩
    · rcases Int.lt_or_le j 0 with h | h
      · exact Or.inl h
      · right
        by_contra hn
        push_neg at hn
        exact hex ⟨j.toNat, by omega, by omega⟩

/-! ### Concrete buffers used to instantiate the theorems -/

/-- Buffer holding `[1, 2, 3]` at offsets `0, 1, 2`. -/
def buf123 : Int → Rat :=
  fun j => if j = 0 then 1 else if j = 1 then 2 else if j = 2 then 3 else 0

/-- Buffer holding `[10, 20, 30]` at offsets `0, 1, 2`. -/
def buf102030 : Int → Rat :=
  fun j => if j = 0 then 10 else if j = 1 then 20 else if j = 2 then 30 else 0

/-- Buffer holding the scalar `5` at offset `0`. -/
def buf5 : Int → Rat := fun j => if j = 0 then 5 else 0

/-- Zero-filled buffer. -/
def bufZero : Int → Rat := fun _ => 0

/-- Buffer with values spread over negative and positive offsets, for
exercising negative strides. -/
def bufNeg : Int → Rat :=
  fun j =>
    if j = -2 then 7 else if j = -1 then 8 else if j = 0 then 9 else
    if j = 1 then 4 else if j = 2 then 5 else if j = 3 then 6 else 0

/-- State with inputs `[1,2,3]` and `[10,20,30]`, zeroed output, empty queue. -/
def st1 : OpState Rat :=
  { a := buf123, b := buf102030, c := bufZero, queue := [] }

/-- State with input `a = [1,2,3]` and a `b` buffer spanning negative
offsets, zeroed output, empty queue. -/
def st2 : OpState Rat :=
  { a := buf123, b := bufNeg, c := bufZero, queue := [] }

/-- State with scalar input `a = [5]` and `b = [1,2,3]`. -/
def st3 : OpState Rat :=
  { a := buf5, b := buf123, c := bufZero, queue := [] }

/-- State whose `a` input is filled with the additive identity. -/
def st8 : OpState Rat :=
  { a := bufZero, b := buf102030, c := bufZero, queue := [] }

/-- State whose `b` input is filled with the additive identity. -/
def st8b : OpState Rat :=
  { a := buf102030, b := bufZero, c := bufZero, queue := [] }

/-! ### The claims -/

/-- C1: for every supported numeric kind, every count `n ≥ 0`, every pair of
signed strides and all buffers, the simple Add entry point writes
`C[i] = A[i*strideA] + B[i*strideB]` for every `i` in `[0, count)`. -/
theorem srtAdd_elementwise {α : Type} [Add α] (type : CudaDataType)
    (strideA strideB : Int) (count : Int) (s : OpState α)
    (ht : isSupported type = true) (hcount : 0 ≤ count)
    (i : Int) (h0 : 0 ≤ i) (hi : i < count) :
    (srtAdd type strideA strideB count s).2.c i
      = s.a (i * strideA) + s.b (i * strideB) := by
  have h1 : ¬ (isSupported type = false) := by simp [ht]
  have h2 : ¬ (count < 0) := by omega
  simp only [srtAdd, if_neg h1, if_neg h2]
  have hi2 : i = ((i.toNat : Nat) : Int) := by omega
  rw [hi2, mapAdd1D_eval]
  omega

/-- C1 witness: `kind=float32, A=[1,2,3], strideA=1, B=[10,20,30],
strideB=1, count=3` produces `C=[11,22,33]`. -/
theorem srtAdd_elementwise_witness :
    (srtAdd .real32F 1 1 3 st1).2.c 0 = 11
    ∧ (srtAdd .real32F 1 1 3 st1).2.c 1 = 22
    ∧ (srtAdd .real32F 1 1 3 st1).2.c 2 = 33 := by
  refine ⟨?_, ?_, ?_⟩ <;>
  · rw [srtAdd_elementwise .real32F 1 1 3 st1 rfl (by norm_num) _
      (by norm_num) (by norm_num)]
    norm_num [st1, buf123, buf102030]

/-- C2: for the fully strided Add at any rank within the supported maximum,
each operand's element address is the dot product of the row-major index
vector `idx[0..dims)` with that operand's stride vector (output positions
enumerated canonically, last dimension fastest), for arbitrary operand
stride values including zero and negative strides; the output strides are
required to address distinct elements, which the front-end's validation of
the caller-supplied shape/stride combination guarantees. -/
theorem srtAddFullyStrided_addressing {α : Type} [Add α]
    (type : CudaDataType) (dims : Int) (extents : List Nat)
    (stridesA stridesB stridesC : List Int) (s : OpState α)
    (ht : isSupported type = true)
    (hdims : 0 ≤ dims ∧ dims ≤ (MAX_RANK : Int))
    (_hrank : extents.length = dims.toNat)
    (_hlA : stridesA.length = extents.length)
    (_hlB : stridesB.length = extents.length)
    (_hlC : stridesC.length = extents.length)
    (hinj : ∀ p < extents.prod, ∀ q < extents.prod,
      dot (unravel extents p) stridesC = dot (unravel extents q) stridesC →
        p = q)
    (p : Nat) (hp : p < extents.prod) :
    (srtAddFullyStrided type dims extents stridesA stridesB stridesC s).2.c
        (dot (unravel extents p) stridesC)
      = s.a (dot (unravel extents p) stridesA)
        + s.b (dot (unravel extents p) stridesB) := by
  have h1 : ¬ (dims < 0 ∨ (MAX_RANK : Int) < dims) := by
    push_neg
    exact ⟨hdims.1, hdims.2⟩
  have h2 : ¬ (isSupported type = false) := by simp [ht]
  simp only [srtAddFullyStrided, if_neg h1, if_neg h2]
  exact mapAddStrided_eval extents s.a stridesA s.b stridesB s.c stridesC
    hinj p hp

/-- C2 witness: a rank-2 instance with shape `[2,3]`, a broadcast stride
vector `[0,1]` for `a`, a negative stride vector `[3,-1]` for `b`, and
output strides `[3,1]`: position 5 (index `[1,2]`) reads `a[2]` and
`b[1]` and writes their sum at output offset 5. -/
theorem srtAddFullyStrided_addressing_witness :
    (0 ≤ (2 : Int) ∧ (2 : Int) ≤ (MAX_RANK : Int))
    ∧ (srtAddFullyStrided .real32F 2 [2, 3] [0, 1] [3, -1] [3, 1] st2).2.c
        (dot (unravel [2, 3] 5) [3, 1])
      = st2.a (dot (unravel [2, 3] 5) [0, 1])
        + st2.b (dot (unravel [2, 3] 5) [3, -1]) := by
  refine ⟨by decide, ?_⟩
  exact srtAddFullyStrided_addressing .real32F 2 [2, 3] [0, 1] [3, -1]
    [3, 1] st2 rfl (by decide) (by decide) (by decide) (by decide)
    (by decide) (by decide) 5 (by decide)

/-- C3: for every count `n ≥ 0` with `strideB = 1`, calling Add with
`strideA = 0` broadcasts the scalar: every output element `i` in `[0, n)`
equals `A[0] + B[i]`. -/
theorem srtAdd_broadcast {α : Type} [Add α] (type : CudaDataType)
    (count : Int) (s : OpState α)
    (ht : isSupported type = true) (hcount : 0 ≤ count)
    (i : Int) (h0 : 0 ≤ i) (hi : i < count) :
    (srtAdd type 0 1 count s).2.c i = s.a 0 + s.b i := by
  have h1 : ¬ (isSupported type = false) := by simp [ht]
  have h2 : ¬ (count < 0) := by omega
  simp only [srtAdd, if_neg h1, if_neg h2]
  have hi2 : i = ((i.toNat : Nat) : Int) := by omega
  rw [hi2, mapAdd1D_eval, mul_zero, mul_one]
  omega

/-- C3 witness: `kind=float32, A=[5], strideA=0, B=[1,2,3], strideB=1,
count=3` produces `C=[6,7,8]`. -/
theorem srtAdd_broadcast_witness :
    (srtAdd .real32F 0 1 3 st3).2.c 0 = 6
    ∧ (srtAdd .real32F 0 1 3 st3).2.c 1 = 7
    ∧ (srtAdd .real32F 0 1 3 st3).2.c 2 = 8 := by
  refine ⟨?_, ?_, ?_⟩ <;>
  · rw [srtAdd_broadcast .real32F 3 st3 rfl (by norm_num) _
      (by norm_num) (by norm_num)]
    norm_num [st3, buf5, buf123]

/-- C4: the fully strided Add at `dims = 1` with a single stride per input
operand and contiguous output is numerically identical to the simple Add
with the same strides and count: the whole result (status, all buffers and
the queue) coincides. -/
theorem srtAddFullyStrided_dims1_eq_srtAdd {α : Type} [Add α]
    (type : CudaDataType) (strideA strideB : Int) (n : Nat)
    (s : OpState α) :
    srtAddFullyStrided type 1 [n] [strideA] [strideB] [1] s
      = srtAdd type strideA strideB (n : Int) s := by
  unfold srtAdd srtAddFullyStrided
  have h1 : ¬ ((1 : Int) < 0 ∨ (MAX_RANK : Int) < 1) := by
    simp [MAX_RANK]
  rw [if_neg h1]
  by_cases hs : isSupported type = false
  · rw [if_pos hs, if_pos hs]
  · have h2 : ¬ ((n : Int) < 0) := by omega
    rw [if_neg hs, if_neg hs, if_neg h2]
    have h3 : ((n : Int)).toNat = n := Int.toNat_natCast n
    rw [h3, mapAddStrided_dim1]

/-- C5: an invocation whose kind is not a supported numeric kind returns
UnsupportedType synchronously with the state untouched: nothing is written
to any buffer and nothing is enqueued on the execution queue. -/
theorem srtAdd_unsupported_type {α : Type} [Add α] (type : CudaDataType)
    (strideA strideB : Int) (count : Int) (s : OpState α)
    (ht : isSupported type = false) :
    srtAdd type strideA strideB count s = (.UnsupportedType, s) := by
  unfold srtAdd
  rw [if_pos ht]

/-- C5 witness: a complex kind is rejected with UnsupportedType and the
state (buffers and queue) is returned unchanged. -/
theorem srtAdd_unsupported_type_witness :
    srtAdd .complex32F 1 1 3 st1 = (.UnsupportedType, st1) :=
  srtAdd_unsupported_type .complex32F 1 1 3 st1 rfl

/-- C6: a fully strided invocation whose rank is negative or exceeds the
maximum supported rank returns InvalidRank with the state untouched:
the output buffer is unchanged and nothing is enqueued. -/
theorem srtAddFullyStrided_invalid_rank {α : Type} [Add α]
    (type : CudaDataType) (dims : Int) (extents : List Nat)
    (stridesA stridesB stridesC : List Int) (s : OpState α)
    (hd : dims < 0 ∨ (MAX_RANK : Int) < dims) :
    srtAddFullyStrided type dims extents stridesA stridesB stridesC s
      = (.InvalidRank, s) := by
  unfold srtAddFullyStrided
  rw [if_pos hd]

/-- C6 witness: `dims = 9` (above the maximum rank 8) and `dims = -1` are
both rejected with InvalidRank, leaving the state unchanged. -/
theorem srtAddFullyStrided_invalid_rank_witness :
    srtAddFullyStrided .real32F 9 [1] [1] [1] [1] st1 = (.InvalidRank, st1)
    ∧ srtAddFullyStrided .real32F (-1) [1] [1] [1] [1] st1
      = (.InvalidRank, st1) :=
  ⟨srtAddFullyStrided_invalid_rank .real32F 9 [1] [1] [1] [1] st1
      (Or.inr (by decide)),
    srtAddFullyStrided_invalid_rank .real32F (-1) [1] [1] [1] [1] st1
      (Or.inl (by decide))⟩

/-- C7: a valid invocation with `count = 0` succeeds and writes nothing:
the output buffer is left entirely unchanged. -/
theorem srtAdd_count_zero_noop {α : Type} [Add α] (type : CudaDataType)
    (strideA strideB : Int) (s : OpState α)
    (ht : isSupported type = true) :
    (srtAdd type strideA strideB 0 s).1 = .Success
    ∧ (srtAdd type strideA strideB 0 s).2.c = s.c := by
  have h1 : ¬ (isSupported type = false) := by simp [ht]
  have h2 : ¬ ((0 : Int) < 0) := by omega
  unfold srtAdd
  rw [if_neg h1, if_neg h2]
  exact ⟨rfl, rfl⟩

/-- C7 witness: `count = 0` on float32 buffers returns Success and the
output buffer is unchanged. -/
theorem srtAdd_count_zero_noop_witness :
    (srtAdd .real32F 1 1 0 st1).1 = .Success
    ∧ (srtAdd .real32F 1 1 0 st1).2.c = st1.c :=
  srtAdd_count_zero_noop .real32F 1 1 st1 rfl

/-- C8: for every supported numeric kind and count `n ≥ 0`, if one input
buffer is filled with the additive identity (zero), Add produces an output
equal element-wise to the other operand (read contiguously): with `a`
zero-filled the output equals `b`, and with `b` zero-filled the output
equals `a`. -/
theorem srtAdd_zero_identity {α : Type} [AddZeroClass α]
    (type : CudaDataType) (strideA strideB : Int) (count : Int)
    (s : OpState α)
    (ht : isSupported type = true) (hcount : 0 ≤ count)
    (i : Int) (h0 : 0 ≤ i) (hi : i < count) :
    ((∀ j, s.a j = 0) → (srtAdd type strideA 1 count s).2.c i = s.b i)
    ∧ ((∀ j, s.b j = 0) → (srtAdd type 1 strideB count s).2.c i = s.a i) := by
  have h1 : ¬ (isSupported type = false) := by simp [ht]
  have h2 : ¬ (count < 0) := by omega
  have hi2 : i = ((i.toNat : Nat) : Int) := by omega
  constructor
  · intro ha
    simp only [srtAdd, if_neg h1, if_neg h2]
    rw [hi2, mapAdd1D_eval, ha, zero_add, mul_one]
    omega
  · intro hb
    simp only [srtAdd, if_neg h1, if_neg h2]
    rw [hi2, mapAdd1D_eval, hb, add_zero, mul_one]
    omega

/-- C8 witness: with `a` the zero buffer and `b = [10,20,30]`, the output
at index 1 is `b[1]`; with `b` the zero buffer and `a = [10,20,30]`, the
output at index 1 is `a[1]`. -/
theorem srtAdd_zero_identity_witness :
    (srtAdd .real32F 1 1 3 st8).2.c 1 = st8.b 1
    ∧ (srtAdd .real32F 1 1 3 st8b).2.c 1 = st8b.a 1 :=
  ⟨(srtAdd_zero_identity .real32F 1 1 3 st8 rfl (by norm_num)
      1 (by norm_num) (by norm_num)).1 (fun _ => rfl),
    (srtAdd_zero_identity .real32F 1 1 3 st8b rfl (by norm_num)
      1 (by norm_num) (by norm_num)).2 (fun _ => rfl)⟩

/-- C9: the computed result is independent of the order in which output
positions are partitioned across or processed by parallel execution
units: any schedule that covers each output position of a valid
invocation (for the fully strided kernel, one whose validated output
strides address distinct elements) produces exactly the buffer produced
by the canonical enumeration, so two runs on the same inputs yield
identical outputs. -/
theorem srt_partition_order_independent {α : Type} [Add α]
    (a : Int → α) (strideA : Int) (b : Int → α) (strideB : Int)
    (c : Int → α) (n : Nat) (sched : List Nat)
    (extents : List Nat) (stridesA stridesB stridesC : List Int)
    (schedS : List Nat)
    (hsched : sched.Perm (List.range n))
    (hschedS : schedS.Perm (List.range extents.prod))
    (hinj : ∀ p < extents.prod, ∀ q < extents.prod,
      dot (unravel extents p) stridesC = dot (unravel extents q) stridesC →
        p = q) :
    mapAdd1DSched sched a strideA b strideB c
      = mapAdd1D a strideA b strideB c n
    ∧ mapAddStridedSched schedS extents a stridesA b stridesB c stridesC
      = mapAddStrided extents a stridesA b stridesB c stridesC := by
  constructor
  · unfold mapAdd1D mapAdd1DSched
    apply storeFold_congr_mem
    · intro p
      exact hsched.mem_iff
    · intro p _ q _ h
      exact Int.natCast_inj.mp h
  · unfold mapAddStrided mapAddStridedSched
    apply storeFold_congr_mem
    · intro p
      exact hschedS.mem_iff
    · intro p hp q hq h
      exact hinj p (List.mem_range.mp (hschedS.mem_iff.mp hp))
        q (List.mem_range.mp (hschedS.mem_iff.mp hq)) h

/-- C9 witness: processing the three output positions in the order
`[2, 0, 1]` (and the two strided positions in the order `[1, 0]`)
produces exactly the canonical result. -/
theorem srt_partition_order_independent_witness :
    mapAdd1DSched [2, 0, 1] buf123 1 buf102030 1 bufZero
      = mapAdd1D buf123 1 buf102030 1 bufZero 3
    ∧ mapAddStridedSched [1, 0] [2] buf123 [1] buf102030 [1] bufZero [1]
      = mapAddStrided [2] buf123 [1] buf102030 [1] bufZero [1] :=
  srt_partition_order_independent buf123 1 buf102030 1 bufZero 3 [2, 0, 1]
    [2] [1] [1] [1] [1, 0] (by decide) (by decide) (by decide)

/-- C10: both entry points declare `a` and `b` as pointers to const and
only `c` as mutable: no invocation of either operation ever writes to
either input buffer; only the output buffer (and the queue) may change. -/
theorem srt_inputs_readonly {α : Type} [Add α] (type : CudaDataType)
    (strideA strideB count : Int) (dims : Int) (extents : List Nat)
    (stridesA stridesB stridesC : List Int) (s : OpState α) :
    ((srtAdd type strideA strideB count s).2.a = s.a
      ∧ (srtAdd type strideA strideB count s).2.b = s.b)
    ∧ ((srtAddFullyStrided type dims extents stridesA stridesB stridesC
          s).2.a = s.a
      ∧ (srtAddFullyStrided type dims extents stridesA stridesB stridesC
          s).2.b = s.b) := by
  unfold srtAdd srtAddFullyStrided
  refine ⟨⟨?_, ?_⟩, ?_, ?_⟩ <;>
    (split <;> first
      | rfl
      | (split <;> rfl))
